import Mathlib

/-!
Verification of picture_ingest_search.py.

The file embeds the program's image-processing pipeline
(process_and_encode_image), its ingestion loop (ingest_pictures) and its
vector-search query builder (search_pictures) as Lean definitions, and
proves or refutes the specification's claims about them.

External collaborators (the PIL codec, the Voyage embedding gateway, the
MongoDB store) are modelled as parameters: the codec as a function from a
quality setting to the encoded bytes, the gateway and store as functions
supplied to the pipeline.
-/

namespace PictureIngest

/-! ## Definitions

### The area-constrained resize step (process_and_encode_image, step 1)

Source (picture_ingest_search.py lines 31-38):

  width, height = img.size
  current_pixels = width * height
  if current_pixels > max_pixels:
      scale_factor = (max_pixels / current_pixels) ** 0.5
      new_width = int(width * scale_factor)
      new_height = int(height * scale_factor)
      img = img.resize((new_width, new_height), ...)

Python's float arithmetic is modelled with exact reals; `int` of a
non-negative float is `Nat.floor`.
-/

/-- The scale factor `(max_pixels / current_pixels) ** 0.5` computed by the
resize branch, as an exact real number. -/
noncomputable def scaleFactor (width height maxPixels : ℕ) : ℝ :=
  Real.sqrt ((maxPixels : ℝ) / ((width : ℝ) * (height : ℝ)))

/-- The dimensions the image has after step 1 of process_and_encode_image:
unchanged when `width * height ≤ maxPixels`, otherwise each axis is scaled
by `scaleFactor` and truncated with `int` (i.e. `Nat.floor`). -/
noncomputable def resizedDims (width height maxPixels : ℕ) : ℕ × ℕ :=
  if width * height > maxPixels then
    (⌊(width : ℝ) * scaleFactor width height maxPixels⌋₊,
     ⌊(height : ℝ) * scaleFactor width height maxPixels⌋₊)
  else
    (width, height)

/-! ### The iterative byte-budget compression loop (lines 46-59)

Source:

  quality = 95
  while True:
      output_buffer.seek(0); output_buffer.truncate()
      img.save(output_buffer, format="JPEG", quality=quality)
      current_size = output_buffer.tell()
      if current_size <= (max_bytes * 0.7) or quality <= 20:
          break
      quality -= 10

The JPEG codec is opaque to the loop, so it is modelled as a parameter
`bytesAt : ℕ → List ℕ` giving the bytes `img.save` writes at each quality
setting; `output_buffer.tell()` is their length. The float literal 0.7 is
modelled as the exact rational 7/10. -/

/-- The loop's break test on the encoded size:
`current_size <= (max_bytes * 0.7)` (line 57). -/
def sizeWithinBudget (maxBytes size : ℕ) : Bool :=
  decide ((size : ℚ) ≤ 7 / 10 * (maxBytes : ℚ))

/-- The full break condition of line 57:
`current_size <= (max_bytes * 0.7) or quality <= 20`. -/
def stopCond (maxBytes size quality : ℕ) : Bool :=
  sizeWithinBudget maxBytes size || decide (quality ≤ 20)

/-- The trace of the while-loop started at a given quality: one
`(quality, bytes)` entry per iteration, i.e. per `img.save` call, ending
with the iteration at which the loop breaks. -/
def compressTrace (bytesAt : ℕ → List ℕ) (maxBytes quality : ℕ) :
    List (ℕ × List ℕ) :=
  if stopCond maxBytes (bytesAt quality).length quality then
    [(quality, bytesAt quality)]
  else
    (quality, bytesAt quality) :: compressTrace bytesAt maxBytes (quality - 10)
termination_by quality
decreasing_by
  simp only [stopCond, Bool.or_eq_true, decide_eq_true_eq, not_or] at *
  omega

/-- The `(quality, bytes)` pair the loop holds in `output_buffer` when it
breaks: the contents the function then base64-encodes. -/
def compressResult (bytesAt : ℕ → List ℕ) (maxBytes quality : ℕ) :
    ℕ × List ℕ :=
  if stopCond maxBytes (bytesAt quality).length quality then
    (quality, bytesAt quality)
  else
    compressResult bytesAt maxBytes (quality - 10)
termination_by quality
decreasing_by
  simp only [stopCond, Bool.or_eq_true, decide_eq_true_eq, not_or] at *
  omega

/-- The loop as process_and_encode_image runs it, from `quality = 95`
(line 46): the list of its encode attempts. -/
def processCompress (bytesAt : ℕ → List ℕ) (maxBytes : ℕ) :
    List (ℕ × List ℕ) :=
  compressTrace bytesAt maxBytes 95

/-- The final encode attempt of the loop run from `quality = 95`. -/
def processResult (bytesAt : ℕ → List ℕ) (maxBytes : ℕ) : ℕ × List ℕ :=
  compressResult bytesAt maxBytes 95

/-- A codec whose output is 15,000,000 bytes long at every quality: a large
photograph whose JPEG encoding never fits the effective budget
`0.7 * 20000000 = 14000000` of the default `max_bytes`. -/
def bigJpeg : List ℕ := List.replicate 15000000 0

/-! ### Color-space normalization (lines 43-44)

Source:

  if img.mode in ("RGBA", "P"):
      img = img.convert("RGB")

`PILMode` lists the image modes Pillow's `Image.open` can produce. Per the
Pillow documentation, the modes carrying an alpha channel are RGBA, LA
(grayscale with alpha) and PA (palette with alpha); P is the palette mode.
Pillow's JPEG plugin can write only the modes 1, L, RGB, CMYK and YCbCr:
saving any other mode raises an OSError (cannot write mode X as JPEG). -/

/-- The Pillow image modes. `one` stands for mode "1" (bilevel). -/
inductive PILMode where
  | one | L | LA | P | PA | RGB | RGBA | CMYK | YCbCr | I | F
  deriving DecidableEq

/-- Pillow semantics: the modes that carry an alpha channel. -/
def hasAlphaChannel : PILMode → Bool
  | .RGBA | .LA | .PA => true
  | _ => false

/-- Pillow semantics: the modes the JPEG encoder accepts for saving. -/
def jpegWritable : PILMode → Bool
  | .one | .L | .RGB | .CMYK | .YCbCr => true
  | _ => false

/-- Step 2 of process_and_encode_image (lines 43-44): convert to RGB exactly
when the mode is RGBA or P. -/
def convertForJpeg (m : PILMode) : PILMode :=
  if m = .RGBA ∨ m = .P then .RGB else m

/-! ### Transport encoding (lines 61-62)

Source:

  encoded_string = base64.b64encode(output_buffer.getvalue()).decode('utf-8')
  return f"data:image/jpeg;base64," and then encoded_string

The image is saved with format="JPEG" (line 52) whatever the source file's
format was, and the content-type tag of the returned data URL is the fixed
text data:image/jpeg;base64 followed by a comma. Bytes are naturals below
256; base64.b64encode is embedded as `base64Encode` with the standard
alphabet and '=' padding, and `base64Decode` is its inverse. -/

/-- The 64-character standard base64 alphabet used by base64.b64encode. -/
def base64Alphabet : List Char :=
  ['A', 'B', 'C', 'D', 'E', 'F', 'G', 'H', 'I', 'J', 'K', 'L', 'M',
   'N', 'O', 'P', 'Q', 'R', 'S', 'T', 'U', 'V', 'W', 'X', 'Y', 'Z',
   'a', 'b', 'c', 'd', 'e', 'f', 'g', 'h', 'i', 'j', 'k', 'l', 'm',
   'n', 'o', 'p', 'q', 'r', 's', 't', 'u', 'v', 'w', 'x', 'y', 'z',
   '0', '1', '2', '3', '4', '5', '6', '7', '8', '9', '+', '/']

/-- The alphabet character of a 6-bit value. -/
def b64Char (i : ℕ) : Char := base64Alphabet.getD i '='

/-- The 6-bit value of an alphabet character. -/
def b64Index (c : Char) : ℕ := base64Alphabet.indexOf c

/-- base64.b64encode on a byte list: three bytes become four alphabet
characters; a final chunk of one or two bytes is padded with '='. -/
def base64Encode : List ℕ → List Char
  | [] => []
  | [a] => [b64Char (a / 4), b64Char (a % 4 * 16), '=', '=']
  | [a, b] => [b64Char (a / 4), b64Char (a % 4 * 16 + b / 16),
               b64Char (b % 16 * 4), '=']
  | a :: b :: c :: rest =>
      b64Char (a / 4) :: b64Char (a % 4 * 16 + b / 16) ::
        b64Char (b % 16 * 4 + c / 64) :: b64Char (c % 64) :: base64Encode rest

/-- base64 decoding: four characters back to three bytes, with '=' padding
cutting the final chunk to one or two bytes. -/
def base64Decode : List Char → List ℕ
  | c1 :: c2 :: c3 :: c4 :: rest =>
      if c3 = '=' then
        [b64Index c1 * 4 + b64Index c2 / 16]
      else if c4 = '=' then
        [b64Index c1 * 4 + b64Index c2 / 16,
         b64Index c2 % 16 * 16 + b64Index c3 / 4]
      else
        (b64Index c1 * 4 + b64Index c2 / 16) ::
        (b64Index c2 % 16 * 16 + b64Index c3 / 4) ::
        (b64Index c3 % 4 * 64 + b64Index c4) :: base64Decode rest
  | _ => []

/-- The fixed content-type tag of the returned data URL (line 62). -/
def dataUrlPrefix : List Char := "data:image/jpeg;base64,".data

set_option linter.unusedVariables false in
/-- The string process_and_encode_image returns (line 62): the data URL
wrapping the base64 encoding of the loop's final buffer. `file_format` is
the source file's format (jpg, png, webp); it does not occur on the right
because line 52 always saves JPEG. -/
def process_and_encode_image (file_format : String) (bytesAt : ℕ → List ℕ)
    (maxBytes : ℕ) : List Char :=
  dataUrlPrefix ++ base64Encode (processResult bytesAt maxBytes).2

/-- A codec producing a tiny fixed four-byte output (the JPEG SOI and EOI
markers) at every quality: it fits the default budget at once. -/
def smallJpeg : List ℕ := [255, 216, 255, 217]

/-! ### The ingestion file filter (lines 66-69)

Source:

  valid_extensions = ('.jpg', '.jpeg', '.png', '.webp')
  for filename in os.listdir(directory_path):
      if filename.lower().endswith(valid_extensions):

Python's str.lower is modelled on ASCII (Char.toLower); str.endswith on a
tuple is true when the string ends with any member. -/

/-- The allow-list of image file extensions (line 66). -/
def valid_extensions : List String := [".jpg", ".jpeg", ".png", ".webp"]

/-- Python str.lower (ASCII model: A-Z are mapped to a-z). -/
def pyLower (s : String) : String := String.mk (s.data.map Char.toLower)

/-- Python str.endswith with a single suffix. -/
def pyEndsWith (s suffix : String) : Bool := List.isSuffixOf suffix.data s.data

/-- The loop filter of line 69: `filename.lower().endswith(valid_extensions)`. -/
def isEligibleFile (filename : String) : Bool :=
  valid_extensions.any (fun ext => pyEndsWith (pyLower filename) ext)

/-! ### The ingestion pipeline (ingest_pictures, lines 64-101)

Per file the body runs process_and_encode_image, then vo.multimodal_embed,
then collection.insert_one, inside `try ... except OSError`. The
environment is modelled per file: a FileEntry carries the outcome each of
the three calls would have for that file. Exceptions are split by their
Python class: PIL decode errors (UnidentifiedImageError) and file I/O
errors are OSError subclasses; the voyageai and pymongo client errors are
their own Exception subclasses, not OSError. -/

/-- The exceptions the ingestion body can see, by Python class. -/
inductive PyExc where
  | oserror (msg : String)
  | voyageError (msg : String)
  | mongoError (msg : String)
  deriving DecidableEq

/-- The `except OSError` clause of line 100 catches exactly the OSError
class. -/
def PyExc.caughtByIngest : PyExc → Bool
  | .oserror _ => true
  | _ => false

/-- One file of the ingested directory, with the outcome of each external
call the body would make for it. -/
structure FileEntry where
  name : String
  encoded : Except PyExc String
  embedded : Except PyExc (List ℚ)
  inserted : Except PyExc Unit

/-- The document inserted by collection.insert_one (lines 93-97). -/
structure StoredRecord where
  file_name : String
  embedding : List ℚ
  metadata_path : String
  deriving DecidableEq

/-- The per-file console outcome: Indexed (line 98) or Failed (line 101). -/
inductive FileReport where
  | indexed (r : StoredRecord)
  | failed (name : String) (e : PyExc)
  deriving DecidableEq

/-- The try-block body (lines 72-98): encode, embed, insert, in that order;
the first exception aborts the body. `dir ++ "/" ++ name` models
os.path.join (line 70). -/
def processFile (dir : String) (f : FileEntry) : Except PyExc StoredRecord := do
  let _b64 ← f.encoded
  let emb ← f.embedded
  let _ ← f.inserted
  pure { file_name := f.name, embedding := emb, metadata_path := dir ++ "/" ++ f.name }

/-- The try/except around one file: an OSError is caught and reported as a
failure (line 100-101); any other exception propagates. -/
def ingestFile (dir : String) (f : FileEntry) : Except PyExc FileReport :=
  match processFile dir f with
  | .ok r => .ok (.indexed r)
  | .error e => if e.caughtByIngest then .ok (.failed f.name e) else .error e

/-- ingest_pictures (lines 64-101): process the directory listing in order,
skipping ineligible names; an uncaught exception terminates the whole run. -/
def ingest_pictures (dir : String) (files : List FileEntry) :
    Except PyExc (List FileReport) :=
  match files with
  | [] => .ok []
  | f :: fs =>
    if isEligibleFile f.name then
      match ingestFile dir f with
      | .error e => .error e
      | .ok r => (ingest_pictures dir fs).map (fun rs => r :: rs)
    else
      ingest_pictures dir fs

/-- A directory entry whose decode succeeds and whose embedding and insert
succeed: the valid .jpg of the spec's scenario. -/
def goodJpgEntry : FileEntry :=
  { name := "car.jpg", encoded := .ok "data:image/jpeg;base64,AAAA",
    embedded := .ok [1, 0], inserted := .ok () }

/-- A directory entry whose decode raises PIL's UnidentifiedImageError (an
OSError subclass): the corrupt .png of the spec's scenario. -/
def corruptPngEntry : FileEntry :=
  { name := "broken.png",
    encoded := .error (.oserror "cannot identify image file"),
    embedded := .ok [], inserted := .ok () }

/-! ### The search pipeline (search_pictures, lines 103-141)

The gateway is a parameter taking the call configuration (model name and
input_type, lines 110-114) and the text; the store is a parameter executing
the aggregation pipeline (lines 118-136). search_pictures returns
`list(collection.aggregate(pipeline))` unchanged. -/

/-- The arguments of a vo.multimodal_embed call that fix its intent. -/
structure MultimodalEmbedCall where
  model : String
  inputType : String
  deriving DecidableEq

/-- The embed call of ingest_pictures (lines 85-89): input_type is
"document". -/
def ingestEmbedCall : MultimodalEmbedCall :=
  { model := "voyage-multimodal-3.5", inputType := "document" }

/-- The embed call of search_pictures (lines 110-114): input_type is
"query". -/
def queryEmbedCall : MultimodalEmbedCall :=
  { model := "voyage-multimodal-3.5", inputType := "query" }

/-- The $vectorSearch stage (lines 120-127). -/
structure VectorSearchStage where
  index : String
  path : String
  queryVector : List ℚ
  numCandidates : ℕ
  limit : ℕ
  deriving DecidableEq

/-- The aggregation pipeline of search_pictures: the $vectorSearch stage
followed by the $project stage (lines 128-133), which projects file_name
and the store's native score via the $meta vectorSearchScore field. -/
structure SearchPipeline where
  vectorSearch : VectorSearchStage
  projectFields : List String
  scoreMeta : String
  deriving DecidableEq

/-- The pipeline search_pictures builds for a query embedding and limit
(lines 118-134). -/
def mkSearchPipeline (queryEmbedding : List ℚ) (lim : ℕ) : SearchPipeline :=
  { vectorSearch :=
      { index := "default", path := "embedding", queryVector := queryEmbedding,
        numCandidates := 100, limit := lim },
    projectFields := ["file_name", "score"],
    scoreMeta := "vectorSearchScore" }

/-- One row of the store's ranked answer: identifier and relevance score. -/
structure SearchResultRow where
  file_name : String
  score : ℚ
  deriving DecidableEq

/-- search_pictures (lines 103-141): embed the query text with the query
intent, run the pipeline on the store, return the store's ranked list
as-is. -/
def search_pictures (gateway : MultimodalEmbedCall → String → List ℚ)
    (store : SearchPipeline → List SearchResultRow)
    (query_text : String) (lim : ℕ) : List SearchResultRow :=
  store (mkSearchPipeline (gateway queryEmbedCall query_text) lim)

end PictureIngest

namespace PictureIngest

/-! ## Theorems -/

/-! ### C5: in-budget images are left untouched -/

/-- C5: when the pixel count is within budget the dimensions are unchanged. -/
theorem resizedDims_eq_of_le (width height maxPixels : ℕ)
    (h : width * height ≤ maxPixels) :
    resizedDims width height maxPixels = (width, height) := by
  simp [resizedDims, not_lt.mpr h]

/-- Witness for resizedDims_eq_of_le at a concrete in-budget image. -/
theorem resizedDims_eq_of_le_witness :
    100 * 100 ≤ 15000000 ∧ resizedDims 100 100 15000000 = (100, 100) :=
  ⟨by norm_num, resizedDims_eq_of_le 100 100 15000000 (by norm_num)⟩

/-! ### C3: over-budget images are scaled under the pixel budget -/

/-- C3: when the pixel count exceeds the budget, the resize uses the
square-root scale factor on each axis with truncation, the output pixel
count is at most the budget, and the cross-multiplied aspect-ratio error
is at most one rounding unit, i.e. at most `max width height`. -/
theorem resize_area_bound_aspect (width height maxPixels : ℕ)
    (h : maxPixels < width * height) :
    resizedDims width height maxPixels =
      (⌊(width : ℝ) * scaleFactor width height maxPixels⌋₊,
       ⌊(height : ℝ) * scaleFactor width height maxPixels⌋₊) ∧
    (resizedDims width height maxPixels).1 * (resizedDims width height maxPixels).2
      ≤ maxPixels ∧
    |((resizedDims width height maxPixels).1 : ℝ) * (height : ℝ) -
      ((resizedDims width height maxPixels).2 : ℝ) * (width : ℝ)|
      ≤ max (width : ℝ) (height : ℝ) := by
  have hdef : resizedDims width height maxPixels =
      (⌊(width : ℝ) * scaleFactor width height maxPixels⌋₊,
       ⌊(height : ℝ) * scaleFactor width height maxPixels⌋₊) := by
    simp only [resizedDims, if_pos h]
  have hwh : 0 < width * height := lt_of_le_of_lt (Nat.zero_le maxPixels) h
  have hw : 0 < width := by
    rcases Nat.eq_zero_or_pos width with rfl | hw
    · simp at hwh
    · exact hw
  have hh : 0 < height := by
    rcases Nat.eq_zero_or_pos height with rfl | hh
    · simp at hwh
    · exact hh
  have hwR : (0 : ℝ) < (width : ℝ) := by exact_mod_cast hw
  have hhR : (0 : ℝ) < (height : ℝ) := by exact_mod_cast hh
  set s := scaleFactor width height maxPixels with hs
  have hs0 : 0 ≤ s := Real.sqrt_nonneg _
  have hs2 : s ^ 2 = (maxPixels : ℝ) / ((width : ℝ) * (height : ℝ)) :=
    Real.sq_sqrt (by positivity)
  have hnw_le : (⌊(width : ℝ) * s⌋₊ : ℝ) ≤ (width : ℝ) * s :=
    Nat.floor_le (by positivity)
  have hnh_le : (⌊(height : ℝ) * s⌋₊ : ℝ) ≤ (height : ℝ) * s :=
    Nat.floor_le (by positivity)
  have hnw_gt : (width : ℝ) * s < (⌊(width : ℝ) * s⌋₊ : ℝ) + 1 :=
    Nat.lt_floor_add_one _
  have hnh_gt : (height : ℝ) * s < (⌊(height : ℝ) * s⌋₊ : ℝ) + 1 :=
    Nat.lt_floor_add_one _
  refine ⟨hdef, ?_, ?_⟩
  · rw [hdef]
    have hpix : ((⌊(width : ℝ) * s⌋₊ * ⌊(height : ℝ) * s⌋₊ : ℕ) : ℝ)
        ≤ (maxPixels : ℝ) := by
      push_cast
      calc (⌊(width : ℝ) * s⌋₊ : ℝ) * (⌊(height : ℝ) * s⌋₊ : ℝ)
          ≤ ((width : ℝ) * s) * ((height : ℝ) * s) :=
            mul_le_mul hnw_le hnh_le (Nat.cast_nonneg _) (by positivity)
        _ = ((width : ℝ) * (height : ℝ)) * s ^ 2 := by ring
        _ = ((width : ℝ) * (height : ℝ)) *
              ((maxPixels : ℝ) / ((width : ℝ) * (height : ℝ))) := by rw [hs2]
        _ = (maxPixels : ℝ) := by field_simp
    exact_mod_cast hpix
  · rw [hdef]
    rw [abs_le]
    constructor
    · have hlow : -(height : ℝ) ≤
          (⌊(width : ℝ) * s⌋₊ : ℝ) * (height : ℝ) -
          (⌊(height : ℝ) * s⌋₊ : ℝ) * (width : ℝ) := by
        nlinarith [mul_le_mul_of_nonneg_right hnh_le hwR.le,
          mul_lt_mul_of_pos_right hnw_gt hhR]
      exact le_trans (neg_le_neg (le_max_right (width : ℝ) (height : ℝ))) hlow
    · have hupp : (⌊(width : ℝ) * s⌋₊ : ℝ) * (height : ℝ) -
          (⌊(height : ℝ) * s⌋₊ : ℝ) * (width : ℝ) ≤ (width : ℝ) := by
        nlinarith [mul_le_mul_of_nonneg_right hnw_le hhR.le,
          mul_lt_mul_of_pos_right hnh_gt hwR]
      exact le_trans hupp (le_max_left _ _)

/-- Witness for resize_area_bound_aspect at a concrete over-budget image. -/
theorem resize_area_bound_aspect_witness :
    15000000 < 6000 * 3000 ∧
    (resizedDims 6000 3000 15000000 =
      (⌊(6000 : ℝ) * scaleFactor 6000 3000 15000000⌋₊,
       ⌊(3000 : ℝ) * scaleFactor 6000 3000 15000000⌋₊) ∧
    (resizedDims 6000 3000 15000000).1 * (resizedDims 6000 3000 15000000).2
      ≤ 15000000 ∧
    |((resizedDims 6000 3000 15000000).1 : ℝ) * (3000 : ℝ) -
      ((resizedDims 6000 3000 15000000).2 : ℝ) * (6000 : ℝ)|
      ≤ max (6000 : ℝ) (3000 : ℝ)) :=
  ⟨by norm_num, resize_area_bound_aspect 6000 3000 15000000 (by norm_num)⟩

/-! ### C4: the 6000 x 3000 scenario -/

/-- The scale factor of the 6000 x 3000 example is the square root of 5/6. -/
theorem scaleFactor_example :
    scaleFactor 6000 3000 15000000 = Real.sqrt (5 / 6) := by
  unfold scaleFactor
  norm_num

/-- Helper: the resize of the 6000 x 3000 example evaluates to 5477 x 2738. -/
theorem resizedDims_example_eq :
    resizedDims 6000 3000 15000000 = (5477, 2738) := by
  have hs : scaleFactor 6000 3000 15000000 = Real.sqrt (5 / 6) := scaleFactor_example
  have hw : ⌊(6000 : ℝ) * Real.sqrt (5 / 6)⌋₊ = 5477 := by
    have h1 : (5477 : ℝ) ≤ (6000 : ℝ) * Real.sqrt (5 / 6) := by
      have : (5477 / 6000 : ℝ) ≤ Real.sqrt (5 / 6) :=
        (Real.le_sqrt (by norm_num) (by norm_num)).mpr (by norm_num)
      nlinarith
    have h2 : (6000 : ℝ) * Real.sqrt (5 / 6) < 5478 := by
      have : Real.sqrt (5 / 6) < (5478 / 6000 : ℝ) := by
        rw [Real.sqrt_lt' (by norm_num)]
        norm_num
      nlinarith
    rw [Nat.floor_eq_iff (by positivity)]
    constructor
    · exact_mod_cast h1
    · push_cast
      linarith
  have hh : ⌊(3000 : ℝ) * Real.sqrt (5 / 6)⌋₊ = 2738 := by
    have h1 : (2738 : ℝ) ≤ (3000 : ℝ) * Real.sqrt (5 / 6) := by
      have : (2738 / 3000 : ℝ) ≤ Real.sqrt (5 / 6) :=
        (Real.le_sqrt (by norm_num) (by norm_num)).mpr (by norm_num)
      nlinarith
    have h2 : (3000 : ℝ) * Real.sqrt (5 / 6) < 2739 := by
      have : Real.sqrt (5 / 6) < (2739 / 3000 : ℝ) := by
        rw [Real.sqrt_lt' (by norm_num)]
        norm_num
      nlinarith
    rw [Nat.floor_eq_iff (by positivity)]
    constructor
    · exact_mod_cast h1
    · push_cast
      linarith
  have hdef : resizedDims 6000 3000 15000000 =
      (⌊(6000 : ℝ) * scaleFactor 6000 3000 15000000⌋₊,
       ⌊(3000 : ℝ) * scaleFactor 6000 3000 15000000⌋₊) := by
    simp only [resizedDims, if_pos (by norm_num : 15000000 < 6000 * 3000)]
    norm_num
  rw [hdef, hs, hw, hh]

/-- C4 (amended): the 6000 x 3000 image with maxPixels 15000000 is scaled by
a factor strictly between 0.9128 and 0.9129, and the output dimensions are
exactly 5477 x 2738 (the truncation of 5477.22... and of 2738.61...). -/
theorem resize_example_dims :
    resizedDims 6000 3000 15000000 = (5477, 2738) ∧
    (0.9128 : ℝ) < scaleFactor 6000 3000 15000000 ∧
    scaleFactor 6000 3000 15000000 < (0.9129 : ℝ) := by
  have hs : scaleFactor 6000 3000 15000000 = Real.sqrt (5 / 6) := scaleFactor_example
  have hlow : (0.9128 : ℝ) < Real.sqrt (5 / 6) := by
    rw [show (0.9128 : ℝ) = Real.sqrt (0.9128 ^ 2) by
      rw [Real.sqrt_sq (by norm_num)]]
    exact Real.sqrt_lt_sqrt (by norm_num) (by norm_num)
  have hhigh : Real.sqrt (5 / 6) < (0.9129 : ℝ) := by
    rw [Real.sqrt_lt' (by norm_num)]
    norm_num
  exact ⟨resizedDims_example_eq, by rw [hs]; exact hlow, by rw [hs]; exact hhigh⟩

/-- C4 counterexample: the claim announces output dimensions of
approximately 5477 x 2739, but the code truncates 3000 * 0.91287... = 2738.61
down to 2738, so the output height is not 2739. -/
theorem resize_example_height_ne :
    (resizedDims 6000 3000 15000000).2 = 2738 ∧
    (resizedDims 6000 3000 15000000).2 ≠ 2739 := by
  rw [resizedDims_example_eq]
  exact ⟨rfl, by norm_num⟩

/-! ### The compression loop: invariants shared by C1 and C2 -/

/-- When the break condition fails the quality is still above 20:
line 57 breaks whenever `quality <= 20`. -/
theorem stopCond_false_gt (maxBytes size quality : ℕ)
    (h : ¬ stopCond maxBytes size quality = true) : 20 < quality := by
  simp only [stopCond, Bool.or_eq_true, decide_eq_true_eq, not_or] at h
  omega

/-- The loop always performs at least one encode attempt. -/
theorem compressTrace_ne_nil (bytesAt : ℕ → List ℕ) (maxBytes quality : ℕ) :
    compressTrace bytesAt maxBytes quality ≠ [] := by
  rw [compressTrace]
  split <;> simp

/-- The first encode attempt uses the starting quality. -/
theorem compressTrace_head (bytesAt : ℕ → List ℕ) (maxBytes quality : ℕ) :
    (compressTrace bytesAt maxBytes quality).head? =
      some (quality, bytesAt quality) := by
  rw [compressTrace]
  split <;> rfl

/-- Every encode attempt of a loop started at a quality that is 5 mod 10 and
at least 15 uses a quality that is 5 mod 10, at least 15 and no more than the
start, and records the codec's bytes for that quality. -/
theorem compressTrace_quality_mem (bytesAt : ℕ → List ℕ) (maxBytes : ℕ) :
    ∀ quality, quality % 10 = 5 → 15 ≤ quality →
      ∀ p ∈ compressTrace bytesAt maxBytes quality,
        p.1 % 10 = 5 ∧ 15 ≤ p.1 ∧ p.1 ≤ quality ∧ p.2 = bytesAt p.1 := by
  intro quality
  induction quality using Nat.strong_induction_on with
  | _ q ih =>
    intro h5 h15 p hp
    rw [compressTrace] at hp
    by_cases hc : stopCond maxBytes (bytesAt q).length q = true
    · rw [if_pos hc] at hp
      simp only [List.mem_singleton] at hp
      subst hp
      exact ⟨h5, h15, le_rfl, rfl⟩
    · rw [if_neg hc] at hp
      rcases List.mem_cons.mp hp with rfl | hp'
      · exact ⟨h5, h15, le_rfl, rfl⟩
      · have hq : 20 < q := stopCond_false_gt _ _ _ hc
        have h := ih (q - 10) (by omega) (by omega) (by omega) p hp'
        exact ⟨h.1, h.2.1, by omega, h.2.2.2⟩

/-- Consecutive encode attempts differ by exactly the fixed step of 10
(`quality -= 10`, line 59). -/
theorem compressTrace_chain (bytesAt : ℕ → List ℕ) (maxBytes : ℕ) :
    ∀ quality, List.Chain' (fun x y => y.1 = x.1 - 10)
      (compressTrace bytesAt maxBytes quality) := by
  intro quality
  induction quality using Nat.strong_induction_on with
  | _ q ih =>
    rw [compressTrace]
    by_cases hc : stopCond maxBytes (bytesAt q).length q = true
    · rw [if_pos hc]
      simp
    · rw [if_neg hc]
      have hq : 20 < q := stopCond_false_gt _ _ _ hc
      refine List.chain'_cons'.mpr ⟨?_, ih (q - 10) (by omega)⟩
      intro y hy
      rw [compressTrace_head] at hy
      cases hy
      rfl

/-- The number of encode attempts of a loop started at `quality` is at most
`(quality - 11) / 10 + 1`. -/
theorem compressTrace_length (bytesAt : ℕ → List ℕ) (maxBytes : ℕ) :
    ∀ quality, (compressTrace bytesAt maxBytes quality).length
      ≤ (quality - 11) / 10 + 1 := by
  intro quality
  induction quality using Nat.strong_induction_on with
  | _ q ih =>
    rw [compressTrace]
    by_cases hc : stopCond maxBytes (bytesAt q).length q = true
    · rw [if_pos hc]
      simp
    · rw [if_neg hc]
      have hq : 20 < q := stopCond_false_gt _ _ _ hc
      have h := ih (q - 10) (by omega)
      simp only [List.length_cons]
      omega

/-- The returned buffer contents are those of the last encode attempt. -/
theorem compressResult_getLast (bytesAt : ℕ → List ℕ) (maxBytes : ℕ) :
    ∀ quality, (compressTrace bytesAt maxBytes quality).getLast? =
      some (compressResult bytesAt maxBytes quality) := by
  intro quality
  induction quality using Nat.strong_induction_on with
  | _ q ih =>
    rw [compressTrace, compressResult]
    by_cases hc : stopCond maxBytes (bytesAt q).length q = true
    · rw [if_pos hc, if_pos hc]
      rfl
    · rw [if_neg hc, if_neg hc]
      have hq : 20 < q := stopCond_false_gt _ _ _ hc
      obtain ⟨y, l', hyl⟩ :=
        List.exists_cons_of_ne_nil (compressTrace_ne_nil bytesAt maxBytes (q - 10))
      rw [hyl, List.getLast?_cons_cons, ← hyl]
      exact ih (q - 10) (by omega)

/-- Helper: with the default `max_bytes = 20000000` the break test never
passes for a 15,000,000-byte encoding, so the condition reduces to the
quality floor test. -/
theorem bigJpeg_stop (q : ℕ) :
    stopCond 20000000 ((fun _ : ℕ => bigJpeg) q).length q = decide (q ≤ 20) := by
  norm_num [stopCond, sizeWithinBudget, bigJpeg]

/-- Helper: on the always-over-budget codec the loop runs all nine encode
attempts, at qualities 95, 85, 75, 65, 55, 45, 35, 25 and finally 15. -/
theorem bigJpeg_trace :
    processCompress (fun _ => bigJpeg) 20000000
      = [(95, bigJpeg), (85, bigJpeg), (75, bigJpeg), (65, bigJpeg),
         (55, bigJpeg), (45, bigJpeg), (35, bigJpeg), (25, bigJpeg),
         (15, bigJpeg)] := by
  rw [processCompress]
  rw [compressTrace, bigJpeg_stop]
  norm_num
  rw [compressTrace, bigJpeg_stop]
  norm_num
  rw [compressTrace, bigJpeg_stop]
  norm_num
  rw [compressTrace, bigJpeg_stop]
  norm_num
  rw [compressTrace, bigJpeg_stop]
  norm_num
  rw [compressTrace, bigJpeg_stop]
  norm_num
  rw [compressTrace, bigJpeg_stop]
  norm_num
  rw [compressTrace, bigJpeg_stop]
  norm_num
  rw [compressTrace, bigJpeg_stop]
  norm_num

/-! ### C1: the quality schedule of the loop -/

/-- C1 (amended): for every codec and byte budget, the qualities of the
loop's encode attempts start at 95, decrease in fixed steps of 10 (hence are
non-increasing), and never drop below 15. The spec's floor of 20 is one step
too high: the guard tests `quality <= 20` only after encoding, so after the
attempt at 25 the loop can decrement once more and encode at 15. -/
theorem compress_quality_schedule (bytesAt : ℕ → List ℕ) (maxBytes : ℕ) :
    (processCompress bytesAt maxBytes).head?.map Prod.fst = some 95 ∧
    List.Chain' (fun x y => y.1 = x.1 - 10) (processCompress bytesAt maxBytes) ∧
    ∀ p ∈ processCompress bytesAt maxBytes,
      15 ≤ p.1 ∧ p.1 ≤ 95 ∧ p.1 % 10 = 5 := by
  refine ⟨?_, compressTrace_chain bytesAt maxBytes 95, ?_⟩
  · rw [processCompress, compressTrace_head]
    rfl
  · intro p hp
    have h := compressTrace_quality_mem bytesAt maxBytes 95 (by norm_num)
      (by norm_num) p hp
    exact ⟨h.2.1, h.2.2.1, h.1⟩

/-- C1 counterexample: on a large image that stays over the byte budget at
every quality, with the default `max_bytes = 20000000`, the loop performs an
encode attempt at quality 15, below the claimed floor of 20. -/
theorem compress_quality_floor_violation :
    ∃ p ∈ processCompress (fun _ => bigJpeg) 20000000, p.1 < 20 := by
  rw [bigJpeg_trace]
  exact ⟨(15, bigJpeg), by simp, by norm_num⟩

/-! ### C2: termination of the loop -/

/-- C2 (amended): for every codec and byte budget the loop terminates after
at most nine encode attempts (not eight: qualities 95 down to 15 in steps of
10 are nine values), and it always returns a payload: the returned buffer is
the last encode attempt, never an error, even when every attempt is over
budget. -/
theorem compress_terminates (bytesAt : ℕ → List ℕ) (maxBytes : ℕ) :
    (processCompress bytesAt maxBytes).length ≤ 9 ∧
    (processCompress bytesAt maxBytes).getLast? =
      some (processResult bytesAt maxBytes) := by
  constructor
  · have h := compressTrace_length bytesAt maxBytes 95
    rw [processCompress]
    omega
  · exact compressResult_getLast bytesAt maxBytes 95

/-- C2 counterexample: on the always-over-budget codec with the default
`max_bytes` the loop performs exactly nine encode attempts, more than the
claimed bound of eight. -/
theorem compress_nine_iterations :
    (processCompress (fun _ => bigJpeg) 20000000).length = 9 ∧
    8 < (processCompress (fun _ => bigJpeg) 20000000).length := by
  rw [bigJpeg_trace]
  norm_num

/-! ### C6: color-space normalization -/

/-- C6 (amended): an image in RGBA or palette (P) mode is converted to RGB,
a mode the JPEG encoder accepts; every other mode is passed through
unchanged. -/
theorem convert_rgba_p (m : PILMode) :
    ((m = .RGBA ∨ m = .P) →
      convertForJpeg m = .RGB ∧ jpegWritable (convertForJpeg m) = true) ∧
    (m ≠ .RGBA → m ≠ .P → convertForJpeg m = m) := by
  cases m <;> refine ⟨?_, ?_⟩ <;> decide

/-- C6 counterexample: mode LA (grayscale with alpha) carries an alpha
channel, but the check of line 43 tests only for RGBA and P, so an LA image
is not converted and its mode is one the JPEG encoder rejects: compression
can fail on an image with an alpha channel. -/
theorem convert_alpha_not_handled :
    hasAlphaChannel .LA = true ∧ convertForJpeg .LA = .LA ∧
    jpegWritable (convertForJpeg .LA) = false := by decide

/-! ### C9: the extension filter -/

/-- C9: a file is eligible exactly when its lower-cased name ends in .jpg,
.jpeg, .png or .webp; an ineligible file is skipped without any processing;
upper-case names such as PHOTO.JPG are eligible. -/
theorem ingest_filter_spec :
    (∀ name : String, isEligibleFile name = true ↔
      (pyEndsWith (pyLower name) ".jpg" = true ∨
       pyEndsWith (pyLower name) ".jpeg" = true ∨
       pyEndsWith (pyLower name) ".png" = true ∨
       pyEndsWith (pyLower name) ".webp" = true)) ∧
    (∀ (dir : String) (f : FileEntry) (fs : List FileEntry),
      isEligibleFile f.name = false →
      ingest_pictures dir (f :: fs) = ingest_pictures dir fs) ∧
    isEligibleFile "PHOTO.JPG" = true ∧
    isEligibleFile "notes.txt" = false := by
  refine ⟨?_, ?_, by decide, by decide⟩
  · intro name
    simp [isEligibleFile, valid_extensions]
  · intro dir f fs h
    simp [ingest_pictures, h]

/-! ### C7: the error-handling asymmetry of ingestion -/

/-- C7: an OSError from decode or file I/O on one file is caught: the run
reports that file as failed and processes the remaining files unchanged. An
exception of the embedding client or of the store client is not OSError, so
it propagates and terminates the whole run. The spec's scenario holds: a
directory with one valid .jpg and one corrupt .png yields exactly one
inserted record and one failure report. -/
theorem ingest_error_asymmetry :
    (∀ (dir : String) (f : FileEntry) (fs : List FileEntry) (msg : String),
      isEligibleFile f.name = true →
      f.encoded = .error (.oserror msg) →
      ingest_pictures dir (f :: fs) =
        (ingest_pictures dir fs).map
          (fun rs => .failed f.name (.oserror msg) :: rs)) ∧
    (∀ (dir : String) (f : FileEntry) (fs : List FileEntry) (b : String)
        (msg : String),
      isEligibleFile f.name = true →
      f.encoded = .ok b →
      f.embedded = .error (.voyageError msg) →
      ingest_pictures dir (f :: fs) = .error (.voyageError msg)) ∧
    (∀ (dir : String) (f : FileEntry) (fs : List FileEntry) (b : String)
        (emb : List ℚ) (msg : String),
      isEligibleFile f.name = true →
      f.encoded = .ok b →
      f.embedded = .ok emb →
      f.inserted = .error (.mongoError msg) →
      ingest_pictures dir (f :: fs) = .error (.mongoError msg)) ∧
    ingest_pictures "pics" [goodJpgEntry, corruptPngEntry] =
      .ok [.indexed { file_name := "car.jpg", embedding := [1, 0],
                      metadata_path := "pics/car.jpg" },
           .failed "broken.png" (.oserror "cannot identify image file")] := by
  refine ⟨?_, ?_, ?_, ?_⟩
  · intro dir f fs msg helig henc
    simp [ingest_pictures, helig, ingestFile, processFile, henc,
      PyExc.caughtByIngest, Except.bind, Bind.bind]
  · intro dir f fs b msg helig henc hemb
    simp [ingest_pictures, helig, ingestFile, processFile, henc, hemb,
      PyExc.caughtByIngest, Except.bind, Bind.bind]
  · intro dir f fs b emb msg helig henc hemb hins
    simp [ingest_pictures, helig, ingestFile, processFile, henc, hemb, hins,
      PyExc.caughtByIngest, Except.bind, Bind.bind]
  · rfl

/-! ### C8: the search pipeline -/

/-- C8: search_pictures embeds the query with the query intent (distinct
from the document intent of ingestion), builds a pipeline whose
$vectorSearch stage uses a candidate pool of 100 and the requested limit,
projects file_name and the store's native vectorSearchScore, and returns the
store's ranked list as-is; when the store honors the limit the answer has at
most `lim` results. -/
theorem search_pipeline_spec (gateway : MultimodalEmbedCall → String → List ℚ)
    (store : SearchPipeline → List SearchResultRow)
    (query_text : String) (lim : ℕ)
    (hstore : ∀ p : SearchPipeline, (store p).length ≤ p.vectorSearch.limit) :
    queryEmbedCall.inputType = "query" ∧
    ingestEmbedCall.inputType = "document" ∧
    queryEmbedCall.inputType ≠ ingestEmbedCall.inputType ∧
    (mkSearchPipeline (gateway queryEmbedCall query_text) lim).vectorSearch.numCandidates
      = 100 ∧
    (mkSearchPipeline (gateway queryEmbedCall query_text) lim).vectorSearch.limit
      = lim ∧
    (mkSearchPipeline (gateway queryEmbedCall query_text) lim).vectorSearch.queryVector
      = gateway queryEmbedCall query_text ∧
    (mkSearchPipeline (gateway queryEmbedCall query_text) lim).projectFields
      = ["file_name", "score"] ∧
    (mkSearchPipeline (gateway queryEmbedCall query_text) lim).scoreMeta
      = "vectorSearchScore" ∧
    search_pictures gateway store query_text lim =
      store (mkSearchPipeline (gateway queryEmbedCall query_text) lim) ∧
    (search_pictures gateway store query_text lim).length ≤ lim := by
  refine ⟨rfl, rfl, by decide, rfl, rfl, rfl, rfl, rfl, rfl, ?_⟩
  have h := hstore (mkSearchPipeline (gateway queryEmbedCall query_text) lim)
  simpa [search_pictures, mkSearchPipeline] using h

/-- Witness for search_pipeline_spec: a store that returns no rows honors
every limit, and searching "red car" with limit 1 returns at most 1 row. -/
theorem search_pipeline_spec_witness :
    (∀ p : SearchPipeline,
      ((fun _ : SearchPipeline => ([] : List SearchResultRow)) p).length
        ≤ p.vectorSearch.limit) ∧
    (search_pictures (fun _ _ => [1]) (fun _ => []) "red car" 1).length ≤ 1 :=
  ⟨fun _ => by simp,
    (search_pipeline_spec (fun _ _ => [1]) (fun _ => []) "red car" 1
      (fun _ => by simp)).2.2.2.2.2.2.2.2.2⟩

/-! ### C10: the returned payload is a JPEG data URL -/

/-- Decoding inverts encoding on each alphabet character. -/
theorem b64Index_b64Char (i : ℕ) (h : i < 64) : b64Index (b64Char i) = i := by
  interval_cases i <;> rfl

/-- No alphabet character is the padding character. -/
theorem b64Char_ne_pad (i : ℕ) (h : i < 64) : b64Char i ≠ '=' := by
  interval_cases i <;> decide

/-- base64 decoding inverts base64 encoding on byte lists. -/
theorem base64_roundtrip :
    ∀ l : List ℕ, (∀ b ∈ l, b < 256) → base64Decode (base64Encode l) = l := by
  intro l
  induction l using base64Encode.induct with
  | case1 => intro _; rfl
  | case2 a =>
    intro h
    have ha : a < 256 := h a (by simp)
    rw [base64Encode, base64Decode]
    rw [if_pos rfl]
    rw [b64Index_b64Char (a / 4) (by omega),
        b64Index_b64Char (a % 4 * 16) (by omega)]
    simp only [List.cons.injEq, and_true]
    omega
  | case3 a b =>
    intro h
    have ha : a < 256 := h a (by simp)
    have hb : b < 256 := h b (by simp)
    rw [base64Encode, base64Decode]
    rw [if_neg (b64Char_ne_pad (b % 16 * 4) (by omega)), if_pos rfl]
    rw [b64Index_b64Char (a / 4) (by omega),
        b64Index_b64Char (a % 4 * 16 + b / 16) (by omega),
        b64Index_b64Char (b % 16 * 4) (by omega)]
    simp only [List.cons.injEq, and_true]
    omega
  | case4 a b c rest ih =>
    intro h
    have ha : a < 256 := h a (by simp)
    have hb : b < 256 := h b (by simp)
    have hc : c < 256 := h c (by simp)
    rw [base64Encode, base64Decode]
    rw [if_neg (b64Char_ne_pad (b % 16 * 4 + c / 64) (by omega)),
        if_neg (b64Char_ne_pad (c % 64) (by omega))]
    rw [b64Index_b64Char (a / 4) (by omega),
        b64Index_b64Char (a % 4 * 16 + b / 16) (by omega),
        b64Index_b64Char (b % 16 * 4 + c / 64) (by omega),
        b64Index_b64Char (c % 64) (by omega)]
    rw [ih (fun x hx => h x (by simp [hx]))]
    simp only [List.cons.injEq, and_true]
    omega

/-- C10: whatever the source format, the returned string starts with the
literal data:image/jpeg;base64 content-type tag and a comma, is the same
string as for any other source format, and base64-decoding the suffix after
the 23-character tag recovers exactly the compressed bytes. -/
theorem payload_is_jpeg_data_url (file_format : String)
    (bytesAt : ℕ → List ℕ) (maxBytes : ℕ)
    (h : ∀ b ∈ (processResult bytesAt maxBytes).2, b < 256) :
    dataUrlPrefix <+: process_and_encode_image file_format bytesAt maxBytes ∧
    (∀ other_format : String,
      process_and_encode_image file_format bytesAt maxBytes =
        process_and_encode_image other_format bytesAt maxBytes) ∧
    base64Decode ((process_and_encode_image file_format bytesAt maxBytes).drop 23)
      = (processResult bytesAt maxBytes).2 := by
  refine ⟨List.prefix_append _ _, fun _ => rfl, ?_⟩
  have hdrop : (process_and_encode_image file_format bytesAt maxBytes).drop 23
      = base64Encode (processResult bytesAt maxBytes).2 := by
    rw [process_and_encode_image,
        show (23 : ℕ) = dataUrlPrefix.length from rfl]
    exact List.drop_left _ _
  rw [hdrop]
  exact base64_roundtrip _ h

/-- Helper: on the four-byte codec the loop stops at the first attempt. -/
theorem smallJpeg_result :
    processResult (fun _ => smallJpeg) 20000000 = (95, smallJpeg) := by
  rw [processResult, compressResult]
  norm_num [stopCond, sizeWithinBudget, smallJpeg]

/-- Witness for payload_is_jpeg_data_url on the four-byte codec, with the
source format png. -/
theorem payload_is_jpeg_data_url_witness :
    (∀ b ∈ (processResult (fun _ => smallJpeg) 20000000).2, b < 256) ∧
    (dataUrlPrefix <+:
        process_and_encode_image "png" (fun _ => smallJpeg) 20000000 ∧
      (∀ other_format : String,
        process_and_encode_image "png" (fun _ => smallJpeg) 20000000 =
          process_and_encode_image other_format (fun _ => smallJpeg) 20000000) ∧
      base64Decode
          ((process_and_encode_image "png" (fun _ => smallJpeg) 20000000).drop 23)
        = (processResult (fun _ => smallJpeg) 20000000).2) :=
  ⟨by rw [smallJpeg_result]; decide,
   payload_is_jpeg_data_url "png" (fun _ => smallJpeg) 20000000
     (by rw [smallJpeg_result]; decide)⟩

end PictureIngest
